import Mathlib

/-!
Verification of px/main.py (Px HTTP proxy) against its specification.

The definitions below are a shallow embedding of the Python source in
src/px/main.py.  Pure logic is translated to Lean functions; the calls the
handler makes on the client socket and on the embedded HTTP client library
(mcurl) are recorded as an ordered event trace.  External collaborators that
are not part of the repository (the mcurl driver, the wproxy resolver,
keyring, the OS socket layer) appear as parameters: their answers are inputs
to the embedded functions, exactly as the source consumes their return
values.
-/

namespace Px

/-! ### Model of Proxy.do_curl (src/px/main.py lines 207-278)

Each constructor records one externally visible call the handler makes, in
source order: send_error / send_response / send_header / end_headers write
to the client socket; set_proxy / set_auth / set_debug / bridge /
set_headers / set_transfer_decoding / set_useragent configure the easy
handle; mcurlDo is State.mcurl.do (the driver performing the request);
select is State.mcurl.select (the CONNECT tunnel splice); removeHandle is
State.mcurl.remove. -/
inductive Event where
  | sendError (code : Nat) (msg : String)
  | sendResponse (code : Nat) (msg : String)
  | sendHeader (name : String)
  | endHeaders
  | setProxy (host : String) (port : Nat)
  | setAuth (user : String)
  | setDebug
  | bridge
  | setHeaders
  | setTransferDecoding (enabled : Bool)
  | setUseragent
  | mcurlDo
  | select
  | removeHandle
  deriving DecidableEq

/-- Inputs of one do_curl invocation.  dest is the result of
get_destination: some netloc means a direct connection, none means the
request goes through proxyServers.  setProxyOk is the return value of
curl.set_proxy, mcurlDoOk the return value of State.mcurl.do.  username,
isWin model State.username and the sys.platform test; isConnect the
curl.is_connect test; curlResp and errstr the driver fields used by
send_error on failure. -/
structure CurlEnv where
  dest : Option String
  proxyServers : List (String × Nat)
  setProxyOk : Bool
  username : String
  isWin : Bool
  isConnect : Bool
  mcurlDoOk : Bool
  curlResp : Nat
  errstr : String
  deriving DecidableEq

/-- Credential key chosen by do_curl: State.username when configured, the
SSPI marker on Windows, empty otherwise (lines 229-246). -/
def authKey (e : CurlEnv) : String :=
  if e.username.length ≠ 0 then e.username
  else if e.isWin then ":"
  else ""

/-- Common tail of do_curl after proxy/auth configuration (lines 251-278):
set_debug, bridge for plain HTTP, header and option setup, the driver call,
the failure or CONNECT response, and the State.mcurl.remove release.  The
Bool result is the close_connection flag (set only after a completed
CONNECT tunnel). -/
def doCore (e : CurlEnv) : List Event × Bool :=
  let front := [Event.setDebug]
    ++ (if e.isConnect then [] else [Event.bridge])
    ++ [Event.setHeaders, Event.setTransferDecoding false, Event.setUseragent,
        Event.mcurlDo]
  if ¬ e.mcurlDoOk then
    (front ++ [Event.sendError e.curlResp e.errstr, Event.removeHandle], false)
  else if e.isConnect then
    (front ++ [Event.sendResponse 200 "Connection established",
               Event.sendHeader "Proxy-Agent", Event.endHeaders, Event.select,
               Event.removeHandle], true)
  else
    (front ++ [Event.removeHandle], false)

/-- Proxy.do_curl as an event trace (lines 207-278).  When the destination
is not direct, the first configured upstream proxy_servers[0] is installed;
a set_proxy failure answers 401 and returns, a missing credential on a
non-Windows platform answers 501 and returns; otherwise set_auth installs
the credential and the common tail runs. -/
def do_curl (e : CurlEnv) : List Event × Bool :=
  match e.dest with
  | some _ => doCore e
  | none =>
    let sp := e.proxyServers.headD ("", 0)
    if ¬ e.setProxyOk then
      ([Event.setProxy sp.1 sp.2,
        Event.sendError 401
          ("Proxy server authentication failed: " ++ sp.1 ++ ":" ++ toString sp.2)],
       false)
    else
      let key := authKey e
      if key.length = 0 then
        ([Event.setProxy sp.1 sp.2,
          Event.sendError 501 "SSPI not available and no username configured"],
         false)
      else
        let rest := doCore e
        (Event.setProxy sp.1 sp.2 :: Event.setAuth key :: rest.1, rest.2)

/-! ### Model of admission control (src/px/main.py lines 319-342)

State.allow is the parsed allow rule set; its membership test is the
function allow.  localips is the getaddrinfo answer used by get_host_ips;
get_host_ips prepends 127.0.0.1 (lines 319-324). -/

/-- Local interface set: 127.0.0.1 inserted in front of the getaddrinfo
results (get_host_ips, lines 319-324). -/
def get_host_ips (localips : List String) : List String :=
  "127.0.0.1" :: localips

/-- PoolMixIn.verify_request (lines 332-342): admit when the client IP is in
the allow rule set, else when hostonly is set and the IP is a local
interface address, else reject. -/
def verify_request (allow : String → Bool) (hostonly : Bool)
    (localips : List String) (clientIP : String) : Bool :=
  if allow clientIP then true
  else if hostonly && (get_host_ips localips).contains clientIP then true
  else false

/-- Accept-step contract of the socketserver library around verify_request:
a request is handed to the handler only when verify_request holds; a
rejected connection is shut down before any read or write, so the bytes the
client receives are exactly the handler output on admission and nothing
otherwise. -/
def connectionResponse (allow : String → Bool) (hostonly : Bool)
    (localips : List String) (clientIP : String)
    (handlerOutput : List Nat) : List Nat :=
  if verify_request allow hostonly localips clientIP then handlerOutput else []

/-! ### Model of reload_proxy (src/px/main.py lines 477-498) -/

/-- Resolver modes of the external wproxy module that main.py distinguishes:
config is wproxy.MODE_CONFIG (static server list), configPac is
wproxy.MODE_CONFIG_PAC (configured PAC), auto covers the system-derived
modes. -/
inductive WMode where
  | config
  | configPac
  | auto
  deriving DecidableEq

/-- Per-process resolver state touched by reload_proxy: the wproxy mode and
State.proxy_last_reload. -/
structure RState where
  mode : WMode
  lastReload : Option Int
  deriving DecidableEq

/-- reload_proxy (lines 477-498) for one caller at wall-clock time now with
State.proxyreload = r.  The configured modes return immediately; otherwise,
under State.state_lock, a reload younger than r is skipped, else the
resolver is rebuilt and the timestamp updated.  The Bool result reports
whether the refresh was performed. -/
def reload_proxy (r : Int) (now : Int) (s : RState) : RState × Bool :=
  if s.mode = WMode.config ∨ s.mode = WMode.configPac then (s, false)
  else
    match s.lastReload with
    | some t =>
      if now - t < r then (s, false)
      else ({ s with lastReload := some now }, true)
    | none => ({ s with lastReload := some now }, true)

/-- Sequence of reload_proxy calls.  State.state_lock serializes concurrent
callers, so any concurrent execution is some interleaving, i.e. a list of
call times processed in order.  Returns the final state and the times at
which the refresh was actually performed. -/
def runReloads (r : Int) : List Int → RState → RState × List Int
  | [], s => (s, [])
  | t :: ts, s =>
    let step := reload_proxy r t s
    let rest := runReloads r ts step.1
    (rest.1, if step.2 then t :: rest.2 else rest.2)

/-! ### Model of configuration parsing (src/px/main.py lines 604-945)

Python builtins are embedded: pyStrip is str.strip, pyInt is int(str) for
decimal literals with an optional sign.  The float builtin used only for
the socktimeout key is abstracted as a validity test fOk and a
normalization fN, passed as parameters; no claim depends on their values.
The configparser object State.config is a Store: a map from section and
option name to an optional value string. -/

/-- Python str.strip: remove leading and trailing whitespace. -/
def pyStrip (s : String) : String :=
  String.mk (((s.toList.dropWhile Char.isWhitespace).reverse.dropWhile
    Char.isWhitespace).reverse)

/-- Value of a nonempty all-digit character list, none otherwise. -/
def digitsVal : List Char → Option Nat
  | [] => none
  | cs =>
    if cs.all Char.isDigit then
      some (cs.foldl (fun a c => a * 10 + (c.toNat - 48)) 0)
    else none

/-- Python int(str): strip whitespace, optional sign, decimal digits. -/
def pyInt (s : String) : Option Int :=
  match (pyStrip s).toList with
  | [] => none
  | c :: rest =>
    if c = '-' then (digitsVal rest).map (fun n => -(n : Int))
    else if c = '+' then (digitsVal rest).map (fun n => (n : Int))
    else (digitsVal (c :: rest)).map (fun n => (n : Int))

/-! Python dict operations, preserving insertion order on update as Python
dicts do. -/

/-- Lookup in an association list representing a Python dict. -/
def dlookup : List (String × String) → String → Option String
  | [], _ => none
  | p :: l, k => if p.1 = k then some p.2 else dlookup l k

/-- Python dict assignment: replace in place when the key exists, else
append. -/
def dset : List (String × String) → String → String → List (String × String)
  | [], k, v => [(k, v)]
  | p :: l, k, v => if p.1 = k then (k, v) :: l else p :: dset l k v

/-- Python del on a dict key. -/
def ddel : List (String × String) → String → List (String × String)
  | [], _ => []
  | p :: l, k => if p.1 = k then l else p :: ddel l k

/-- Value of the last entry of the list carrying the given key. -/
def lastVal : List (String × String) → String → Option String
  | [], _ => none
  | p :: l, k =>
    match lastVal l k with
    | some v => some v
    | none => if p.1 = k then some p.2 else none

/-- One command-line argument as parse_cli reads it (lines 700-711): only
arguments of the form --name or --name=value with at least one character
after the dashes produce a flag; --name alone means value "1"; the value
keeps everything after the first equals sign. -/
def cliArg (arg : String) : Option (String × String) :=
  match arg.toList with
  | '-' :: '-' :: rest =>
    match rest with
    | [] => none
    | _ =>
      if rest.contains '=' then
        some (String.mk (rest.takeWhile (fun c => c != '=')),
              String.mk ((rest.dropWhile (fun c => c != '=')).drop 1))
      else
        some (String.mk rest, "1")
  | _ => none

/-- One step of the parse_cli loop: record the flag when the argument is
one. -/
def cliStep (f : List (String × String)) (a : String) :
    List (String × String) :=
  match cliArg a with
  | some kv => dset f kv.1 kv.2
  | none => f

/-- Flags dict built from argv in order (parse_cli loop, lines 700-711). -/
def cliFlags (argv : List String) : List (String × String) :=
  argv.foldl cliStep []

/-- parse_cli (lines 697-718): build the flags dict from argv in order,
then rewrite a proxy entry into a server entry and delete the proxy key. -/
def parse_cli (argv : List String) : List (String × String) :=
  let flags := cliFlags argv
  match dlookup flags "proxy" with
  | some v => ddel (dset flags "server" v) "proxy"
  | none => flags

/-- parse_env (lines 720-739): keep environment variables named PX_
followed by at least one character, keyed by the lowercased remainder. -/
def parse_env (environ : List (String × String)) : List (String × String) :=
  environ.filterMap (fun p =>
    match p.1.toList with
    | 'P' :: 'X' :: '_' :: rest =>
      match rest with
      | [] => none
      | _ => some (String.mk (rest.map Char.toLower), p.2)
    | _ => none)

/-- The configparser store: section name and option name to value. -/
def Store : Type := String → String → Option String

/-- Empty configuration store (no INI file). -/
def emptyStore : Store := fun _ _ => none

/-- State.config.set. -/
def sset (c : Store) (sec name v : String) : Store :=
  fun s n => if s = sec then (if n = name then some v else c s n) else c s n

/-- cfg_str_init (lines 640-651): without override read the stripped INI
value, defaulting when absent; store it back. -/
def cfg_str_init (c : Store) (sec name default : String) (override : Bool) :
    Store :=
  let val := if override then default else
    match c sec name with
    | some s => pyStrip s
    | none => default
  sset c sec name val

/-- Storage normalization of cfg_int_init: str(int(val)) when the value
parses, the unparsed string otherwise (the ValueError is only logged). -/
def intNorm (v : String) : String :=
  match pyInt v with
  | some n => toString n
  | none => v

/-- cfg_int_init (lines 604-620). -/
def cfg_int_init (c : Store) (sec name default : String) (override : Bool) :
    Store :=
  let val := if override then default else
    match c sec name with
    | some s => pyStrip s
    | none => default
  sset c sec name (intNorm val)

/-- cfg_float_init (lines 622-638), with the float builtin abstracted as
the parameters fOk (does the string parse) and fN (str(float(v))). -/
def cfg_float_init (fOk : String → Bool) (fN : String → String) (c : Store)
    (sec name default : String) (override : Bool) : Store :=
  let val := if override then default else
    match c sec name with
    | some s => pyStrip s
    | none => default
  sset c sec name (if fOk val then fN val else val)

/-- String-typed keys of the proxy section (line 854). -/
def strKeys : List String :=
  ["server", "pac", "pac_encoding", "listen", "allow", "noproxy",
   "useragent", "username", "auth"]

/-- Integer-typed keys of the proxy section (line 857). -/
def intProxyKeys : List String := ["port", "gateway", "hostonly"]

/-- Integer-typed keys of the settings section (line 860). -/
def intSettingsKeys : List String :=
  ["workers", "threads", "idle", "proxyreload", "foreground", "log"]

/-- All option names parse_config recognizes. -/
def recognizedKeys : List String :=
  strKeys ++ intProxyKeys ++ intSettingsKeys ++ ["socktimeout"]

/-- Section a recognized key is stored under. -/
def secOf (name : String) : String :=
  if strKeys.contains name ∨ intProxyKeys.contains name then "proxy"
  else "settings"

/-- Stored form of a value for a key, by its declared type. -/
def normKey (fOk : String → Bool) (fN : String → String) (name v : String) :
    String :=
  if strKeys.contains name then v
  else if intProxyKeys.contains name ∨ intSettingsKeys.contains name then
    intNorm v
  else if name = "socktimeout" then (if fOk v then fN v else v)
  else v

/-- cfg_init (lines 851-863): dispatch a key to its typed initializer;
unrecognized names are ignored. -/
def cfg_init (fOk : String → Bool) (fN : String → String) (c : Store)
    (name val : String) (override : Bool) : Store :=
  if strKeys.contains name then cfg_str_init c "proxy" name val override
  else if intProxyKeys.contains name then
    cfg_int_init c "proxy" name val override
  else if intSettingsKeys.contains name then
    cfg_int_init c "settings" name val override
  else if name = "socktimeout" then
    cfg_float_init fOk fN c "settings" name val override
  else c

/-- Built-in defaults in source order (lines 814-834). -/
def defaults : List (String × String) :=
  [("server", ""), ("pac", ""), ("pac_encoding", "utf-8"), ("port", "3128"),
   ("listen", "127.0.0.1"), ("allow", "*.*.*.*"), ("gateway", "0"),
   ("hostonly", "0"), ("noproxy", ""), ("useragent", ""), ("username", ""),
   ("auth", ""), ("workers", "2"), ("threads", "32"), ("idle", "30"),
   ("socktimeout", "20.0"), ("proxyreload", "60"), ("foreground", "0"),
   ("log", "0")]

/-- The four store passes of parse_config (lines 811-875): the
unconditional log override from the debug location (line 811), the
defaults pass, the environment pass and the CLI pass. -/
def configPasses (fOk : String → Bool) (fN : String → String) (ini : Store)
    (environ : List (String × String)) (argv : List String)
    (location : Nat) : Store :=
  let c0 := cfg_int_init ini "settings" "log" (toString location) true
  let c1 := defaults.foldl (fun c p => cfg_init fOk fN c p.1 p.2 false) c0
  let env := parse_env environ
  let c2 := env.foldl (fun c p => cfg_init fOk fN c p.1 p.2 true) c1
  let flags := parse_cli argv
  flags.foldl (fun c p => cfg_init fOk fN c p.1 p.2 true) c2

/-- parse_config (lines 741-936) restricted to its configuration store
effect: the four passes of configPasses followed by the dependency
propagation that purges the allow key in host-only mode (lines 877-903).
The getint calls of the propagation step fail (None) when the stored
gateway or hostonly string does not parse, as the Python code would raise. -/
def parse_config (fOk : String → Bool) (fN : String → String) (ini : Store)
    (environ : List (String × String)) (argv : List String)
    (location : Nat) : Option Store :=
  let c3 := configPasses fOk fN ini environ argv location
  match c3 "proxy" "gateway", c3 "proxy" "allow" with
  | some gs, some al =>
    match pyInt gs with
    | none => none
    | some g =>
      match c3 "proxy" "hostonly" with
      | none => none
      | some hs =>
        match pyInt hs with
        | none => none
        | some h =>
          some (if h = 1 ∧ (g = 0 ∨ (g = 1 ∧ (al = "*.*.*.*" ∨ al = "0.0.0.0/0")))
                then cfg_str_init c3 "proxy" "allow" "" true
                else c3)
  | _, _ => none

/-- Effective value of a key under the precedence the specification states,
lowest first: built-in default, INI file, environment, CLI flags, each
stored through the key's type normalization. -/
def precedenceValue (fOk : String → Bool) (fN : String → String) (ini : Store)
    (env flags : List (String × String)) (k : String) : Option String :=
  match lastVal flags k with
  | some v => some (normKey fOk fN k v)
  | none =>
    match lastVal env k with
    | some v => some (normKey fOk fN k v)
    | none =>
      match defaults.lookup k with
      | some d =>
        some (normKey fOk fN k
          (match ini (secOf k) k with
           | some s => pyStrip s
           | none => d))
      | none => ini (secOf k) k

/-- INI store holding only proxy section port 1000 (the C2 example). -/
def iniPort : Store :=
  fun s n => if s = "proxy" ∧ n = "port" then some "1000" else none

/-- INI store holding only a non-integer proxy section port. -/
def iniBadPort : Store :=
  fun s n => if s = "proxy" ∧ n = "port" then some "abc" else none

/-- INI store holding only settings section log 4. -/
def iniLog4 : Store :=
  fun s n => if s = "settings" ∧ n = "log" then some "4" else none

/-! ### Concrete requests and predicates used by individual claims -/

/-- Concrete request for the c3 witness: empty username, not Windows. -/
def envC3 : CurlEnv :=
  { dest := none, proxyServers := [("up", 8080)], setProxyOk := true,
    username := "", isWin := false, isConnect := false, mcurlDoOk := true,
    curlResp := 0, errstr := "" }

/-- Concrete request for the c4 witness: set_proxy rejected. -/
def envC4 : CurlEnv :=
  { dest := none, proxyServers := [("up", 8080)], setProxyOk := false,
    username := "u", isWin := false, isConnect := false, mcurlDoOk := true,
    curlResp := 0, errstr := "" }

/-- Concrete CONNECT request for the c5 witness. -/
def envC5 : CurlEnv :=
  { dest := none, proxyServers := [("up", 8080)], setProxyOk := true,
    username := "u", isWin := false, isConnect := true, mcurlDoOk := true,
    curlResp := 0, errstr := "" }

/-- Environment of the C7 counterexample: a request routed through the
upstream list a:1, b:2 whose driver call fails. -/
def envC7 : CurlEnv :=
  { dest := none, proxyServers := [("a", 1), ("b", 2)], setProxyOk := true,
    username := "u", isWin := false, isConnect := false, mcurlDoOk := false,
    curlResp := 502, errstr := "connection failed" }

/-- Environment of the C9 counterexample: the configure step rejects the
upstream. -/
def envC9 : CurlEnv :=
  { dest := none, proxyServers := [("a", 1)], setProxyOk := false,
    username := "u", isWin := false, isConnect := false, mcurlDoOk := true,
    curlResp := 0, errstr := "" }

/-- Concrete direct plain request for the c9 witness. -/
def envC9w : CurlEnv :=
  { dest := some "h:80", proxyServers := [], setProxyOk := true,
    username := "", isWin := false, isConnect := false, mcurlDoOk := true,
    curlResp := 0, errstr := "" }

/-- Value of the last argument of an argv list that parses to the given
flag key. -/
def lastCli : List String → String → Option String
  | [], _ => none
  | a :: l, k =>
    match lastCli l k with
    | some v => some v
    | none =>
      match cliArg a with
      | some kv => if kv.1 = k then some kv.2 else none
      | none => none

/-- An argument that does not produce a server or proxy flag. -/
def notServerProxy (a : String) : Bool :=
  match cliArg a with
  | some kv => (kv.1 != "server") && (kv.1 != "proxy")
  | none => true

/-! ### Helper lemmas -/

/-- During a run of reload_proxy calls, once a reload timestamp is
recorded, every later performed refresh is at least r after the previous
recorded one. -/
theorem runReloads_chain (r : Int) :
    ∀ (ts : List Int) (s : RState) (t0 : Int), s.lastReload = some t0 →
      List.Chain (fun a b => r ≤ b - a) t0 (runReloads r ts s).2 := by
  intro ts
  induction ts with
  | nil => intro s t0 _; simp [runReloads]
  | cons t ts ih =>
    intro s t0 hlast
    by_cases hmode : s.mode = WMode.config ∨ s.mode = WMode.configPac
    · simpa [runReloads, reload_proxy, hmode] using ih s t0 hlast
    · by_cases hskip : t - t0 < r
      · simpa [runReloads, reload_proxy, hmode, hlast, hskip] using ih s t0 hlast
      · have hchain := ih { s with lastReload := some t } t rfl
        simp only [runReloads, reload_proxy, hmode, hlast, if_neg hskip]
        simp only [if_false, ite_false]
        refine List.Chain.cons ?_ ?_
        · omega
        · exact hchain

/-- Successive refreshes performed by reload_proxy are at least r apart. -/
theorem runReloads_chain' (r : Int) :
    ∀ (ts : List Int) (s : RState),
      List.Chain' (fun a b => r ≤ b - a) (runReloads r ts s).2 := by
  intro ts
  induction ts with
  | nil => intro s; simp [runReloads]
  | cons t ts ih =>
    intro s
    by_cases hmode : s.mode = WMode.config ∨ s.mode = WMode.configPac
    · simpa [runReloads, reload_proxy, hmode] using ih s
    · cases hlast : s.lastReload with
      | none =>
        have hchain := runReloads_chain r ts { s with lastReload := some t } t rfl
        simp only [runReloads, reload_proxy, hmode, hlast]
        exact hchain
      | some t0 =>
        by_cases hskip : t - t0 < r
        · simpa [runReloads, reload_proxy, hmode, hlast, hskip] using ih s
        · have hchain := runReloads_chain r ts { s with lastReload := some t } t rfl
          simp only [runReloads, reload_proxy, hmode, hlast, if_neg hskip]
          exact hchain

/-- In the configured modes reload_proxy never refreshes. -/
theorem runReloads_static (r : Int) :
    ∀ (ts : List Int) (s : RState),
      (s.mode = WMode.config ∨ s.mode = WMode.configPac) →
      (runReloads r ts s).2 = [] := by
  intro ts
  induction ts with
  | nil => intro s _; simp [runReloads]
  | cons t ts ih =>
    intro s hmode
    simpa [runReloads, reload_proxy, hmode] using ih s hmode

/-! ### Claims about admission, the request handler and the resolver -/

/-- C1: for every accepted TCP connection, the admission check admits the
client if and only if the client IP is in the allow rule set, or hostonly
is enabled and the client IP is in the local-interface set (the
getaddrinfo answer plus 127.0.0.1); every other connection is closed with
zero bytes written to the client. -/
theorem c1_admission_iff (allow : String → Bool) (hostonly : Bool)
    (localips : List String) (clientIP : String) (handlerOutput : List Nat) :
    (verify_request allow hostonly localips clientIP = true ↔
      (allow clientIP = true ∨
        (hostonly = true ∧ clientIP ∈ get_host_ips localips))) ∧
    (verify_request allow hostonly localips clientIP = false →
      connectionResponse allow hostonly localips clientIP handlerOutput = []) := by
  constructor
  · by_cases ha : allow clientIP <;>
      simp [verify_request, ha, List.elem_iff, get_host_ips]
  · intro hv
    simp [connectionResponse, hv]

/-- Witness for c1_admission_iff: a client IP outside the allow set and the
local interfaces, with hostonly enabled, receives zero bytes. -/
theorem c1_admission_iff_witness :
    connectionResponse (fun ip => ip == "1.2.3.4") true ["10.0.0.7"]
      "9.9.9.9" [7, 7] = [] :=
  (c1_admission_iff (fun ip => ip == "1.2.3.4") true ["10.0.0.7"]
    "9.9.9.9" [7, 7]).2 (by decide)

/-- C3: for every non-DIRECT request that the driver's configure step
accepts, when the configured username is empty and the platform is not
Windows (no SSPI), do_curl sends error 501 with the exact message and
never invokes the driver, so the upstream is not contacted. -/
theorem c3_no_credential_501 (e : CurlEnv) (hdest : e.dest = none)
    (hsp : e.setProxyOk = true) (huser : e.username = "")
    (hwin : e.isWin = false) :
    Event.sendError 501 "SSPI not available and no username configured" ∈
      (do_curl e).1 ∧
    Event.mcurlDo ∉ (do_curl e).1 := by
  have hkey : authKey e = "" := by simp [authKey, huser, hwin]
  simp [do_curl, hdest, hsp, hkey]

/-- Witness for c3_no_credential_501 at a concrete request. -/
theorem c3_no_credential_501_witness :
    Event.sendError 501 "SSPI not available and no username configured" ∈
      (do_curl envC3).1 ∧
    Event.mcurlDo ∉ (do_curl envC3).1 :=
  c3_no_credential_501 envC3 rfl rfl rfl rfl

/-- C4: for every non-DIRECT request whose set_proxy call fails, do_curl
answers 401 naming the chosen upstream host and port and stops: no
credential is installed and the driver is never invoked. -/
theorem c4_set_proxy_failure_401 (e : CurlEnv) (hdest : e.dest = none)
    (hsp : e.setProxyOk = false) :
    (do_curl e).1 =
      [Event.setProxy (e.proxyServers.headD ("", 0)).1
         (e.proxyServers.headD ("", 0)).2,
       Event.sendError 401
         ("Proxy server authentication failed: " ++
           (e.proxyServers.headD ("", 0)).1 ++ ":" ++
           toString (e.proxyServers.headD ("", 0)).2)] ∧
    (∀ u, Event.setAuth u ∉ (do_curl e).1) ∧
    Event.mcurlDo ∉ (do_curl e).1 := by
  simp [do_curl, hdest, hsp]

/-- Witness for c4_set_proxy_failure_401 at a concrete request. -/
theorem c4_set_proxy_failure_401_witness :
    (do_curl envC4).1 =
      [Event.setProxy "up" 8080,
       Event.sendError 401 "Proxy server authentication failed: up:8080"] :=
  (c4_set_proxy_failure_401 envC4 rfl rfl).1

/-- C5: for every CONNECT request the driver completes successfully,
do_curl writes the 200 Connection established response, the Proxy-Agent
header and the header terminator to the client strictly before the tunnel
splice, and afterwards sets close_connection, so the connection is not
reused. -/
theorem c5_connect_response_before_tunnel (e : CurlEnv)
    (hc : e.isConnect = true) (hok : e.mcurlDoOk = true)
    (hdo : Event.mcurlDo ∈ (do_curl e).1) :
    ∃ pre, (do_curl e).1 = pre ++
        [Event.sendResponse 200 "Connection established",
         Event.sendHeader "Proxy-Agent", Event.endHeaders, Event.select,
         Event.removeHandle] ∧
      Event.select ∉ pre ∧ (do_curl e).2 = true := by
  cases hdest : e.dest with
  | some v =>
    refine ⟨[Event.setDebug, Event.setHeaders,
             Event.setTransferDecoding false, Event.setUseragent,
             Event.mcurlDo], ?_, by decide, ?_⟩
    · simp [do_curl, hdest, doCore, hc, hok]
    · simp [do_curl, hdest, doCore, hc, hok]
  | none =>
    by_cases hsp : e.setProxyOk
    · by_cases hkey : (authKey e).length = 0
      · exfalso
        simp [do_curl, hdest, hsp, hkey] at hdo
      · refine ⟨[Event.setProxy (e.proxyServers.headD ("", 0)).1
                   (e.proxyServers.headD ("", 0)).2,
                 Event.setAuth (authKey e), Event.setDebug, Event.setHeaders,
                 Event.setTransferDecoding false, Event.setUseragent,
                 Event.mcurlDo], ?_, by simp, ?_⟩
        · simp [do_curl, hdest, hsp, hkey, doCore, hc, hok]
        · simp [do_curl, hdest, hsp, hkey, doCore, hc, hok]
    · exfalso
      simp [do_curl, hdest, hsp] at hdo

/-- Witness for c5_connect_response_before_tunnel at a concrete CONNECT
request through an upstream. -/
theorem c5_connect_response_before_tunnel_witness :
    ∃ pre,
      (do_curl envC5).1 = pre ++
        [Event.sendResponse 200 "Connection established",
         Event.sendHeader "Proxy-Agent", Event.endHeaders, Event.select,
         Event.removeHandle] ∧
      Event.select ∉ pre ∧
      (do_curl envC5).2 = true :=
  c5_connect_response_before_tunnel envC5 rfl rfl (by decide)

/-- C6: the refresh performed by reload_proxy happens at most once per
proxyreload window: under the serializing state lock any set of concurrent
callers is an interleaving (a list of call times), the refreshes it
performs are pairwise at least proxyreload apart (also counting a refresh
timestamp already recorded), and in the configured modes (static server
list or configured PAC) no refresh is ever performed. -/
theorem c6_reload_window (r : Int) (ts : List Int) (s : RState) :
    ((s.mode = WMode.config ∨ s.mode = WMode.configPac) →
      (runReloads r ts s).2 = []) ∧
    List.Chain' (fun a b => r ≤ b - a) (runReloads r ts s).2 ∧
    (∀ t0, s.lastReload = some t0 →
      List.Chain (fun a b => r ≤ b - a) t0 (runReloads r ts s).2) :=
  ⟨runReloads_static r ts s, runReloads_chain' r ts s,
   fun t0 h => runReloads_chain r ts s t0 h⟩

/-- Witness for c6_reload_window: a configured-PAC resolver performs no
refresh, and a system resolver with calls at 0, 30 and 120 refreshes in a
60 second window only at 120. -/
theorem c6_reload_window_witness :
    (runReloads 60 [0, 30, 120] ⟨WMode.configPac, none⟩).2 = [] ∧
    List.Chain (fun a b => (60 : Int) ≤ b - a) 0
      (runReloads 60 [0, 30, 120] ⟨WMode.auto, some 0⟩).2 :=
  ⟨(c6_reload_window 60 [0, 30, 120] _).1 (Or.inr rfl),
   (c6_reload_window 60 [0, 30, 120] _).2.2 0 rfl⟩

/-- Counterexample to C7: with upstream list a:1, b:2 and a:1 failing,
do_curl configures only a:1, sends the failure to the client and never
touches b:2 - there is no fallback to the second entry. -/
theorem c7_counterexample :
    (do_curl envC7).1 =
      [Event.setProxy "a" 1, Event.setAuth "u", Event.setDebug, Event.bridge,
       Event.setHeaders, Event.setTransferDecoding false, Event.setUseragent,
       Event.mcurlDo, Event.sendError 502 "connection failed",
       Event.removeHandle] ∧
    Event.setProxy "b" 2 ∉ (do_curl envC7).1 := by decide

/-- C7 amended: only the first entry of the upstream list is ever
configured, the driver is invoked at most once, and on a driver failure the
handler sends the driver-derived error to the client instead of retrying a
later entry. -/
theorem c7_first_entry_only (e : CurlEnv) (hdest : e.dest = none) :
    (∀ h p, Event.setProxy h p ∈ (do_curl e).1 →
      (h, p) = e.proxyServers.headD ("", 0)) ∧
    (do_curl e).1.count Event.mcurlDo ≤ 1 ∧
    (e.mcurlDoOk = false → Event.mcurlDo ∈ (do_curl e).1 →
      Event.sendError e.curlResp e.errstr ∈ (do_curl e).1) := by
  by_cases hsp : e.setProxyOk
  · by_cases hkey : (authKey e).length = 0
    · refine ⟨?_, ?_, ?_⟩ <;>
        simp_all [do_curl, hdest, hsp, hkey]
    · by_cases hok : e.mcurlDoOk <;> by_cases hc : e.isConnect <;>
        refine ⟨?_, ?_, ?_⟩ <;>
          simp_all [do_curl, hdest, hsp, hkey, doCore, List.count_cons]
  · refine ⟨?_, ?_, ?_⟩ <;> simp_all [do_curl, hdest, hsp]

/-- Witness for c7_first_entry_only on the failing two-entry list. -/
theorem c7_first_entry_only_witness :
    Event.sendError 502 "connection failed" ∈ (do_curl envC7).1 :=
  (c7_first_entry_only envC7 rfl).2.2 rfl (by decide)

/-- Counterexample to C9: on the 401 error path the easy handle is not
released - the trace sends the 401 but contains no State.mcurl.remove
call. -/
theorem c9_counterexample :
    Event.sendError 401 "Proxy server authentication failed: a:1" ∈
      (do_curl envC9).1 ∧
    Event.removeHandle ∉ (do_curl envC9).1 := by decide

/-- C9 amended: do_curl releases the easy handle back to the driver exactly
on the paths that invoke the driver (including the failure-response path);
the early 401 and 501 returns skip the release. -/
theorem c9_remove_iff_driver_invoked (e : CurlEnv) :
    Event.removeHandle ∈ (do_curl e).1 ↔ Event.mcurlDo ∈ (do_curl e).1 := by
  cases hdest : e.dest with
  | some v =>
    by_cases hok : e.mcurlDoOk <;> by_cases hc : e.isConnect <;>
      simp [do_curl, hdest, doCore, hok, hc]
  | none =>
    by_cases hsp : e.setProxyOk
    · by_cases hkey : (authKey e).length = 0
      · simp [do_curl, hdest, hsp, hkey]
      · by_cases hok : e.mcurlDoOk <;> by_cases hc : e.isConnect <;>
          simp [do_curl, hdest, hsp, hkey, doCore, hok, hc]
    · simp [do_curl, hdest, hsp]

/-- Witness for c9_remove_iff_driver_invoked: on a successful plain request
the handle is released. -/
theorem c9_remove_iff_driver_invoked_witness :
    Event.removeHandle ∈ (do_curl envC9w).1 :=
  (c9_remove_iff_driver_invoked envC9w).mpr (by decide)

/-! ### Dict lemmas for parse_cli -/

/-- Setting a key makes it look up to the new value. -/
theorem dlookup_dset_self (l : List (String × String)) (k v : String) :
    dlookup (dset l k v) k = some v := by
  induction l with
  | nil => simp [dset, dlookup]
  | cons p l ih =>
    by_cases h : p.1 = k
    · simp [dset, h, dlookup]
    · simp [dset, h, dlookup, ih]

/-- Setting a key leaves other lookups unchanged. -/
theorem dlookup_dset_ne (l : List (String × String)) (k v k' : String)
    (h : k' ≠ k) : dlookup (dset l k v) k' = dlookup l k' := by
  have h' : ¬ k = k' := fun hh => h hh.symm
  induction l with
  | nil => simp [dset, dlookup, h']
  | cons p l ih =>
    by_cases hp : p.1 = k
    · subst hp
      simp [dset, dlookup, h']
    · simp [dset, hp, dlookup, ih]

/-- Keys of a dict after a set are the old keys plus the set key. -/
theorem mem_keys_dset (l : List (String × String)) (k v k' : String)
    (h : k' ∈ (dset l k v).map Prod.fst) :
    k' = k ∨ k' ∈ l.map Prod.fst := by
  induction l with
  | nil =>
    simp only [dset, List.map_cons, List.map_nil, List.mem_singleton] at h
    exact Or.inl h
  | cons p l ih =>
    by_cases hp : p.1 = k
    · simp only [dset, if_pos hp, List.map_cons, List.mem_cons] at h
      rcases h with h | h
      · exact Or.inl h
      · exact Or.inr (List.mem_cons_of_mem _ h)
    · simp only [dset, if_neg hp, List.map_cons, List.mem_cons] at h
      rcases h with h | h
      · exact Or.inr (by simp [h])
      · rcases ih h with h | h
        · exact Or.inl h
        · exact Or.inr (List.mem_cons_of_mem _ h)

/-- Setting a key preserves key uniqueness. -/
theorem nodup_keys_dset (l : List (String × String)) (k v : String)
    (h : (l.map Prod.fst).Nodup) : ((dset l k v).map Prod.fst).Nodup := by
  induction l with
  | nil => simp [dset]
  | cons p l ih =>
    simp only [List.map_cons, List.nodup_cons] at h
    by_cases hp : p.1 = k
    · subst hp
      simpa [dset, List.nodup_cons] using h
    · simp only [dset, if_neg hp, List.map_cons, List.nodup_cons]
      refine ⟨fun hmem => ?_, ih h.2⟩
      rcases mem_keys_dset l k v p.1 hmem with hh | hh
      · exact hp hh
      · exact h.1 hh

/-- A key absent from the dict looks up to none. -/
theorem dlookup_eq_none (l : List (String × String)) (k : String)
    (h : k ∉ l.map Prod.fst) : dlookup l k = none := by
  induction l with
  | nil => simp [dlookup]
  | cons p l ih =>
    simp only [List.map_cons, List.mem_cons] at h
    push_neg at h
    have h1 : ¬ p.1 = k := fun hh => h.1 hh.symm
    simp [dlookup, h1, ih h.2]

/-- Deleting a key with unique keys removes it. -/
theorem dlookup_ddel_self (l : List (String × String)) (k : String)
    (h : (l.map Prod.fst).Nodup) : dlookup (ddel l k) k = none := by
  induction l with
  | nil => simp [ddel, dlookup]
  | cons p l ih =>
    simp only [List.map_cons, List.nodup_cons] at h
    by_cases hp : p.1 = k
    · subst hp
      simp only [ddel, if_pos rfl]
      exact dlookup_eq_none l p.1 h.1
    · simp [ddel, hp, dlookup, ih h.2]

/-- Deleting a key leaves other lookups unchanged. -/
theorem dlookup_ddel_ne (l : List (String × String)) (k k' : String)
    (h : k' ≠ k) : dlookup (ddel l k) k' = dlookup l k' := by
  have h' : ¬ k = k' := fun hh => h hh.symm
  induction l with
  | nil => simp [ddel]
  | cons p l ih =>
    by_cases hp : p.1 = k
    · subst hp
      simp [ddel, dlookup, h']
    · simp [ddel, hp, dlookup, ih]

/-- Lookup through the parse_cli fold is the last flag the arguments
produce for the key, else the lookup in the starting dict. -/
theorem dlookup_cliFold (l : List String) :
    ∀ (A : List (String × String)) (k : String),
      dlookup (l.foldl cliStep A) k =
        match lastCli l k with
        | some v => some v
        | none => dlookup A k := by
  induction l with
  | nil => intro A k; simp [lastCli]
  | cons a l ih =>
    intro A k
    rw [List.foldl_cons, ih (cliStep A a) k]
    cases hl : lastCli l k with
    | some v => simp [lastCli, hl]
    | none =>
      simp only [lastCli, hl]
      cases hca : cliArg a with
      | none => simp [cliStep, hca]
      | some kv =>
        by_cases hk : kv.1 = k
        · subst hk
          simp [cliStep, hca, dlookup_dset_self]
        · simp [cliStep, hca, hk,
            dlookup_dset_ne A kv.1 kv.2 k (fun hh => hk hh.symm)]

/-- The parse_cli fold keeps keys unique. -/
theorem nodup_keys_cliFold (l : List String) :
    ∀ (A : List (String × String)), (A.map Prod.fst).Nodup →
      ((l.foldl cliStep A).map Prod.fst).Nodup := by
  induction l with
  | nil => intro A hA; simpa using hA
  | cons a l ih =>
    intro A hA
    rw [List.foldl_cons]
    refine ih (cliStep A a) ?_
    cases hca : cliArg a with
    | none => simpa [cliStep, hca] using hA
    | some kv => simpa [cliStep, hca] using nodup_keys_dset A kv.1 kv.2 hA

/-- The flags dict of parse_cli has unique keys. -/
theorem nodup_keys_cliFlags (argv : List String) :
    ((cliFlags argv).map Prod.fst).Nodup :=
  nodup_keys_cliFold argv [] (by simp)

/-- The splitting law of lastCli over concatenation. -/
theorem lastCli_append (l1 l2 : List String) (k : String) :
    lastCli (l1 ++ l2) k =
      match lastCli l2 k with
      | some v => some v
      | none => lastCli l1 k := by
  induction l1 with
  | nil =>
    simp only [List.nil_append]
    cases h2 : lastCli l2 k <;> simp [lastCli]
  | cons a l1 ih =>
    simp only [List.cons_append, lastCli, List.append_eq]
    rw [ih]
    cases h2 : lastCli l2 k with
    | some v => simp
    | none => cases h1 : lastCli l1 k <;> simp

/-- Arguments producing neither server nor proxy flags yield none for
those keys. -/
theorem lastCli_none (l : List String)
    (h : ∀ a ∈ l, notServerProxy a = true) (k : String)
    (hk : k = "server" ∨ k = "proxy") : lastCli l k = none := by
  induction l with
  | nil => simp [lastCli]
  | cons a l ih =>
    have ha := h a (by simp)
    have hl := ih (fun b hb => h b (by simp [hb]))
    simp only [lastCli, hl]
    cases hca : cliArg a with
    | none => simp
    | some kv =>
      simp only [notServerProxy, hca, Bool.and_eq_true, bne_iff_ne,
        ne_eq] at ha
      have hne : ¬ kv.1 = k := by
        rcases hk with rfl | rfl
        · exact ha.1
        · exact ha.2
      simp [hne]

/-! ### Store lemmas for parse_config -/

/-- Setting an option does not change options with a different name. -/
theorem sset_ne_name (c : Store) (sec name v s n : String) (h : n ≠ name) :
    sset c sec name v s n = c s n := by
  by_cases hs : s = sec <;> simp [sset, hs, h]

/-- cfg_init on one option name leaves every other option unchanged. -/
theorem cfg_init_ne (fOk : String → Bool) (fN : String → String) (c : Store)
    (n v : String) (ov : Bool) (s k : String) (h : k ≠ n) :
    cfg_init fOk fN c n v ov s k = c s k := by
  unfold cfg_init
  split_ifs <;>
    simp [cfg_str_init, cfg_int_init, cfg_float_init, sset, h]

/-- cfg_init with override stores the normalized given value at the key's
cell. -/
theorem cfg_init_self_true (fOk : String → Bool) (fN : String → String)
    (c : Store) (k v : String) (hk : k ∈ recognizedKeys) :
    cfg_init fOk fN c k v true (secOf k) k = some (normKey fOk fN k v) := by
  have hk2 : k ∈ (["server", "pac", "pac_encoding", "listen", "allow",
      "noproxy", "useragent", "username", "auth", "port", "gateway",
      "hostonly", "workers", "threads", "idle", "proxyreload", "foreground",
      "log", "socktimeout"] : List String) := by
    simpa [recognizedKeys, strKeys, intProxyKeys, intSettingsKeys,
      or_assoc] using hk
  fin_cases hk2 <;>
    simp [cfg_init, cfg_str_init, cfg_int_init, cfg_float_init, normKey,
      secOf, sset, strKeys, intProxyKeys, intSettingsKeys]

/-- cfg_init without override reads the stripped stored value when
present, else the given default, and stores its normalization. -/
theorem cfg_init_self_false (fOk : String → Bool) (fN : String → String)
    (c : Store) (k v : String) (hk : k ∈ recognizedKeys) :
    cfg_init fOk fN c k v false (secOf k) k =
      some (normKey fOk fN k
        (match c (secOf k) k with
         | some s => pyStrip s
         | none => v)) := by
  have hk2 : k ∈ (["server", "pac", "pac_encoding", "listen", "allow",
      "noproxy", "useragent", "username", "auth", "port", "gateway",
      "hostonly", "workers", "threads", "idle", "proxyreload", "foreground",
      "log", "socktimeout"] : List String) := by
    simpa [recognizedKeys, strKeys, intProxyKeys, intSettingsKeys,
      or_assoc] using hk
  fin_cases hk2 <;>
    simp [cfg_init, cfg_str_init, cfg_int_init, cfg_float_init, normKey,
      secOf, sset, strKeys, intProxyKeys, intSettingsKeys]

/-- A cfg_init pass over entries that never carry the key leaves the key's
cell unchanged. -/
theorem fold_no_key (fOk : String → Bool) (fN : String → String) (ov : Bool)
    (L : List (String × String)) :
    ∀ (c : Store) (k : String), (∀ q ∈ L, q.1 ≠ k) →
      (L.foldl (fun c p => cfg_init fOk fN c p.1 p.2 ov) c) (secOf k) k =
        c (secOf k) k := by
  induction L with
  | nil => intro c k _; rfl
  | cons p L ih =>
    intro c k h
    simp only [List.foldl_cons]
    rw [ih _ k (fun q hq => h q (List.mem_cons_of_mem _ hq))]
    exact cfg_init_ne fOk fN c p.1 p.2 ov _ k (Ne.symm (h p (by simp)))

/-- An override pass (environment or CLI) stores the normalized value of
the last entry carrying the key, and otherwise leaves the cell alone. -/
theorem fold_override_cell (fOk : String → Bool) (fN : String → String)
    (L : List (String × String)) :
    ∀ (c : Store) (k : String), k ∈ recognizedKeys →
      (L.foldl (fun c p => cfg_init fOk fN c p.1 p.2 true) c) (secOf k) k =
        (match lastVal L k with
         | some v => some (normKey fOk fN k v)
         | none => c (secOf k) k) := by
  induction L with
  | nil => intro c k _; simp [lastVal]
  | cons p L ih =>
    intro c k hk
    simp only [List.foldl_cons]
    rw [ih _ k hk]
    cases hl : lastVal L k with
    | some v => simp [lastVal, hl]
    | none =>
      simp only [lastVal, hl]
      by_cases hp : p.1 = k
      · subst hp
        rw [if_pos rfl]
        exact cfg_init_self_true fOk fN c p.1 p.2 hk
      · rw [if_neg hp]
        exact cfg_init_ne fOk fN c p.1 p.2 true _ k (fun hh => hp hh.symm)

/-- The defaults pass stores, for a key occurring at most once, the
normalization of the stripped prior cell content, defaulting to the listed
value. -/
theorem fold_defaults_cell (fOk : String → Bool) (fN : String → String)
    (L : List (String × String)) :
    ∀ (c : Store) (k : String), k ∈ recognizedKeys →
      (L.map Prod.fst).count k ≤ 1 →
      (L.foldl (fun c p => cfg_init fOk fN c p.1 p.2 false) c) (secOf k) k =
        (match L.lookup k with
         | some d => some (normKey fOk fN k
             (match c (secOf k) k with
              | some s => pyStrip s
              | none => d))
         | none => c (secOf k) k) := by
  induction L with
  | nil => intro c k _ _; simp [List.lookup]
  | cons p L ih =>
    intro c k hk hcount
    simp only [List.foldl_cons]
    by_cases hp : p.1 = k
    · subst hp
      have hzero : (L.map Prod.fst).count p.1 = 0 := by
        have h1 : (L.map Prod.fst).count p.1 + 1 ≤ 1 := by
          simpa [List.count_cons] using hcount
        omega
      have hnok : ∀ q ∈ L, q.1 ≠ p.1 := by
        intro q hq hqe
        have hmem : p.1 ∈ L.map Prod.fst :=
          List.mem_map.mpr ⟨q, hq, hqe⟩
        exact absurd hmem (List.count_eq_zero.mp hzero)
      rw [fold_no_key fOk fN false L _ p.1 hnok]
      have hlk : (p :: L).lookup p.1 = some p.2 := by
        simp [List.lookup]
      rw [hlk]
      exact cfg_init_self_false fOk fN c p.1 p.2 hk
    · have hbe0 : (k == p.1) = false :=
        beq_eq_false_iff_ne.mpr (fun hh => hp hh.symm)
      have hcount2 : (L.map Prod.fst).count k ≤ 1 := by
        have h' := hcount
        simp only [List.map_cons, List.count_cons, hbe0, if_false] at h'
        omega
      have hstep : cfg_init fOk fN c p.1 p.2 false (secOf k) k = c (secOf k) k :=
        cfg_init_ne fOk fN c p.1 p.2 false _ k (fun hh => hp hh.symm)
      rw [ih _ k hk hcount2, hstep]
      have hlk : (p :: L).lookup k = L.lookup k := by
        simp [List.lookup, hbe0]
      rw [hlk]

/-- The four configuration passes give every recognized key other than log
its precedence value: CLI over environment over stripped INI over the
built-in default, through the key's type normalization. -/
theorem configPasses_cell (fOk : String → Bool) (fN : String → String)
    (ini : Store) (environ : List (String × String)) (argv : List String)
    (loc : Nat) (k : String) (hk : k ∈ recognizedKeys) (hlog : k ≠ "log") :
    configPasses fOk fN ini environ argv loc (secOf k) k =
      precedenceValue fOk fN ini (parse_env environ) (parse_cli argv) k := by
  have h0 : cfg_int_init ini "settings" "log" (toString loc) true
      (secOf k) k = ini (secOf k) k := by
    simp only [cfg_int_init]
    exact sset_ne_name ini "settings" "log" _ _ k hlog
  have hcount : (defaults.map Prod.fst).count k ≤ 1 :=
    List.nodup_iff_count_le_one.mp (by decide) k
  simp only [configPasses]
  rw [fold_override_cell fOk fN (parse_cli argv) _ k hk]
  rw [fold_override_cell fOk fN (parse_env environ) _ k hk]
  rw [fold_defaults_cell fOk fN defaults _ k hk hcount]
  rw [h0]
  rfl

/-- For every recognized key other than log and allow, a successful
parse_config stores the precedence value: the dependency propagation step
only rewrites the allow cell. -/
theorem parse_config_cell (fOk : String → Bool) (fN : String → String)
    (ini : Store) (environ : List (String × String)) (argv : List String)
    (loc : Nat) (k : String) (c : Store) (hk : k ∈ recognizedKeys)
    (hlog : k ≠ "log") (hallow : k ≠ "allow")
    (hp : parse_config fOk fN ini environ argv loc = some c) :
    c (secOf k) k =
      precedenceValue fOk fN ini (parse_env environ) (parse_cli argv) k := by
  have hcell := configPasses_cell fOk fN ini environ argv loc k hk hlog
  simp only [parse_config] at hp
  repeat' split at hp
  all_goals try exact Option.noConfusion hp
  all_goals injection hp with h
  all_goals subst h
  · simp only [cfg_str_init]
    rw [sset_ne_name _ _ _ _ _ _ hallow]
    exact hcell
  · exact hcell

/-! ### Claims C2 and C8 -/

/-- Counterexample to C2: precedence does not hold for every key.  With
CLI flags hostonly=1 and allow=1.2.3.4 the effective allow value is the
purged empty string, not the CLI value; and with INI log=4 and no other
source the effective log value is 0 (the pre-pass debug-location override),
not the INI value. -/
theorem c2_counterexample :
    (parse_config (fun _ => true) id emptyStore []
        ["--hostonly=1", "--allow=1.2.3.4"] 0).map
      (fun c => c "proxy" "allow") = some (some "") ∧
    some (some "") ≠ some (some "1.2.3.4") ∧
    (parse_config (fun _ => true) id iniLog4 [] [] 0).map
      (fun c => c "settings" "log") = some (some "0") ∧
    some (some "0") ≠ some (some "4") :=
  ⟨rfl, by decide, rfl, by decide⟩

/-- C2 amended: for every configuration key except log (overridden before
the passes by the debug-location) and allow (purged after the passes in
host-only mode), the effective value follows the precedence lowest-first:
built-in default, stripped INI value, PX_ environment variable, CLI flag,
each through the key's type normalization; in particular INI port=1000,
env PX_PORT=2000 and CLI --port=3000 give effective port 3000. -/
theorem c2_precedence :
    (∀ (fOk : String → Bool) (fN : String → String) (ini : Store)
        (environ : List (String × String)) (argv : List String) (loc : Nat)
        (k : String) (c : Store),
        k ∈ recognizedKeys → k ≠ "log" → k ≠ "allow" →
        parse_config fOk fN ini environ argv loc = some c →
        c (secOf k) k =
          precedenceValue fOk fN ini (parse_env environ) (parse_cli argv) k) ∧
    (parse_config (fun _ => true) id iniPort [("PX_PORT", "2000")]
        ["--port=3000"] 0).map (fun c => c "proxy" "port") =
      some (some "3000") :=
  ⟨fun fOk fN ini environ argv loc k c hk hlog hallow hp =>
     parse_config_cell fOk fN ini environ argv loc k c hk hlog hallow hp,
   rfl⟩

/-- Witness for c2_precedence at the port example. -/
theorem c2_precedence_witness :
    (parse_config (fun _ => true) id iniPort [("PX_PORT", "2000")]
        ["--port=3000"] 0).map (fun c => c (secOf "port") "port") =
      some (precedenceValue (fun _ => true) id iniPort
        (parse_env [("PX_PORT", "2000")]) (parse_cli ["--port=3000"])
        "port") := by
  cases hp : parse_config (fun _ => true) id iniPort [("PX_PORT", "2000")]
      ["--port=3000"] 0 with
  | none =>
    have hs : (parse_config (fun _ => true) id iniPort [("PX_PORT", "2000")]
        ["--port=3000"] 0).isSome = true := rfl
    rw [hp] at hs
    simp at hs
  | some c =>
    have h := c2_precedence.1 (fun _ => true) id iniPort
      [("PX_PORT", "2000")] ["--port=3000"] 0 "port" c (by decide)
      (by decide) (by decide) hp
    simp only [Option.map_some']
    exact congrArg some h

/-- Counterexample to C8: an INI port value that does not parse as an
integer is kept verbatim in the configuration store; the built-in default
3128 is not restored. -/
theorem c8_counterexample :
    (parse_config (fun _ => true) id iniBadPort [] [] 0).map
      (fun c => c "proxy" "port") = some (some "abc") ∧
    some (some "abc") ≠ some (some "3128") :=
  ⟨rfl, by decide⟩

/-- C8 amended: for every numeric key that can fail its typed parse -
the integer keys port, workers, threads, idle, proxyreload, foreground
and the float key socktimeout - except log (whose INI value the pre-pass
debug-location override discards before any parse, so nothing of it is
stored or logged) and except gateway and hostonly (whose stored string
parse_config itself re-reads, so a bad value raises at startup): when the
INI value fails to parse as the declared type and no environment variable
or CLI flag overrides the key, the error is only logged and the stripped
unparsed INI string is stored for that key (the built-in default is not
restored), while every other key is unaffected, receiving its normal
precedence value. -/
theorem c8_invalid_value_kept :
    ∀ (fOk : String → Bool) (fN : String → String) (ini : Store)
      (environ : List (String × String)) (argv : List String) (loc : Nat)
      (k : String) (c : Store) (s : String),
      ((k ∈ (["port", "workers", "threads", "idle", "proxyreload",
              "foreground"] : List String) ∧ pyInt (pyStrip s) = none) ∨
        (k = "socktimeout" ∧ fOk (pyStrip s) = false)) →
      ini (secOf k) k = some s →
      lastVal (parse_env environ) k = none →
      lastVal (parse_cli argv) k = none →
      parse_config fOk fN ini environ argv loc = some c →
      c (secOf k) k = some (pyStrip s) ∧
      (∀ k2, k2 ∈ recognizedKeys → k2 ≠ k → k2 ≠ "log" → k2 ≠ "allow" →
        c (secOf k2) k2 =
          precedenceValue fOk fN ini (parse_env environ) (parse_cli argv)
            k2) := by
  intro fOk fN ini environ argv loc k c s hk hini henv hcli hp
  refine ⟨?_, fun k2 hk2 _ hlog2 hallow2 =>
    parse_config_cell fOk fN ini environ argv loc k2 c hk2 hlog2 hallow2 hp⟩
  rcases hk with ⟨hk, hbad⟩ | ⟨rfl, hbad⟩
  · fin_cases hk <;>
      (rw [parse_config_cell fOk fN ini environ argv loc _ c (by decide)
          (by decide) (by decide) hp]
       simp [precedenceValue, hcli, henv, hini, defaults, List.lookup,
         normKey, intNorm, hbad, strKeys, intProxyKeys, intSettingsKeys])
  · rw [parse_config_cell fOk fN ini environ argv loc _ c (by decide)
        (by decide) (by decide) hp]
    simp [precedenceValue, hcli, henv, hini, defaults, List.lookup,
      normKey, hbad, strKeys, intProxyKeys, intSettingsKeys]

/-- Witness for c8_invalid_value_kept: INI port=abc is stored as abc. -/
theorem c8_invalid_value_kept_witness :
    (parse_config (fun _ => true) id iniBadPort [] [] 0).map
      (fun c => c (secOf "port") "port") = some (some (pyStrip "abc")) := by
  cases hp : parse_config (fun _ => true) id iniBadPort [] [] 0 with
  | none =>
    have hs : (parse_config (fun _ => true) id iniBadPort [] [] 0).isSome =
        true := rfl
    rw [hp] at hs
    simp at hs
  | some c =>
    have h := (c8_invalid_value_kept (fun _ => true) id iniBadPort [] [] 0
      "port" c "abc" (Or.inl ⟨by decide, by decide⟩) (by decide) rfl rfl
      hp).1
    simp only [Option.map_some']
    exact congrArg some h

/-! ### Claim C10 -/

/-- Counterexample to C10: the command lines --proxy=a:1 --server=b:2 and
--server=a:1 --server=b:2 produce different effective server values, so
--proxy=X is not interchangeable with --server=X on every command line. -/
theorem c10_counterexample :
    dlookup (parse_cli ["--proxy=a:1", "--server=b:2"]) "server" =
      some "a:1" ∧
    dlookup (parse_cli ["--server=a:1", "--server=b:2"]) "server" =
      some "b:2" ∧
    some "a:1" ≠ some "b:2" := by decide

/-- C10 amended: a --proxy=X flag is stored under the server key and the
proxy key is removed; and on any command line whose other arguments
produce neither server nor proxy flags, replacing the --proxy=X argument
by a --server=X argument yields the same flags dict. -/
theorem c10_proxy_server_synonym (pre post : List String)
    (argP argS x : String)
    (hP : cliArg argP = some ("proxy", x))
    (hS : cliArg argS = some ("server", x))
    (hpre : ∀ a ∈ pre, notServerProxy a = true)
    (hpost : ∀ a ∈ post, notServerProxy a = true) :
    dlookup (parse_cli (pre ++ argP :: post)) "server" = some x ∧
    dlookup (parse_cli (pre ++ argP :: post)) "proxy" = none ∧
    (∀ k, dlookup (parse_cli (pre ++ argP :: post)) k =
          dlookup (parse_cli (pre ++ argS :: post)) k) := by
  have hpostP : lastCli post "proxy" = none :=
    lastCli_none post hpost "proxy" (Or.inr rfl)
  have hpostS : lastCli post "server" = none :=
    lastCli_none post hpost "server" (Or.inl rfl)
  have hpreP : lastCli pre "proxy" = none :=
    lastCli_none pre hpre "proxy" (Or.inr rfl)
  have hpreS : lastCli pre "server" = none :=
    lastCli_none pre hpre "server" (Or.inl rfl)
  have h1P : lastCli (pre ++ argP :: post) "proxy" = some x := by
    rw [lastCli_append]
    simp [lastCli, hpostP, hP]
  have h1S : lastCli (pre ++ argP :: post) "server" = none := by
    rw [lastCli_append]
    simp [lastCli, hpostS, hP, hpreS]
  have h2P : lastCli (pre ++ argS :: post) "proxy" = none := by
    rw [lastCli_append]
    simp [lastCli, hpostP, hS, hpreP]
  have h2S : lastCli (pre ++ argS :: post) "server" = some x := by
    rw [lastCli_append]
    simp [lastCli, hpostS, hS]
  have hraw1P : dlookup (cliFlags (pre ++ argP :: post)) "proxy" = some x := by
    rw [cliFlags, dlookup_cliFold, h1P]
  have hraw1S : dlookup (cliFlags (pre ++ argP :: post)) "server" = none := by
    rw [cliFlags, dlookup_cliFold, h1S]
    simp [dlookup]
  have hraw2P : dlookup (cliFlags (pre ++ argS :: post)) "proxy" = none := by
    rw [cliFlags, dlookup_cliFold, h2P]
    simp [dlookup]
  have hraw2S : dlookup (cliFlags (pre ++ argS :: post)) "server" = some x := by
    rw [cliFlags, dlookup_cliFold, h2S]
  have hA : parse_cli (pre ++ argP :: post) =
      ddel (dset (cliFlags (pre ++ argP :: post)) "server" x) "proxy" := by
    rw [parse_cli]
    simp only [hraw1P]
  have hB : parse_cli (pre ++ argS :: post) =
      cliFlags (pre ++ argS :: post) := by
    rw [parse_cli]
    simp only [hraw2P]
  have hnodup1 : ((dset (cliFlags (pre ++ argP :: post)) "server" x).map
      Prod.fst).Nodup :=
    nodup_keys_dset _ "server" x (nodup_keys_cliFlags _)
  refine ⟨?_, ?_, ?_⟩
  · rw [hA, dlookup_ddel_ne _ _ _ (by decide), dlookup_dset_self]
  · rw [hA, dlookup_ddel_self _ _ hnodup1]
  · intro k
    by_cases hks : k = "server"
    · subst hks
      rw [hA, hB, dlookup_ddel_ne _ _ _ (by decide), dlookup_dset_self,
        hraw2S]
    · by_cases hkp : k = "proxy"
      · subst hkp
        rw [hA, hB, dlookup_ddel_self _ _ hnodup1, hraw2P]
      · rw [hA, hB, dlookup_ddel_ne _ _ _ hkp,
          dlookup_dset_ne _ _ _ _ hks]
        rw [cliFlags, dlookup_cliFold, cliFlags, dlookup_cliFold]
        rw [lastCli_append, lastCli_append]
        have hkp2 : ¬ "proxy" = k := fun hh => hkp hh.symm
        have hks2 : ¬ "server" = k := fun hh => hks hh.symm
        have hargP : lastCli (argP :: post) k = lastCli post k := by
          simp only [lastCli, hP]
          cases lastCli post k with
          | some v => simp
          | none => simp [hkp2]
        have hargS : lastCli (argS :: post) k = lastCli post k := by
          simp only [lastCli, hS]
          cases lastCli post k with
          | some v => simp
          | none => simp [hks2]
        rw [hargP, hargS]

/-- Witness for c10_proxy_server_synonym on a concrete command line. -/
theorem c10_proxy_server_synonym_witness :
    dlookup (parse_cli (["--foo=1"] ++ "--proxy=a:1" :: ["--bar"]))
      "server" = some "a:1" ∧
    dlookup (parse_cli (["--foo=1"] ++ "--proxy=a:1" :: ["--bar"]))
      "proxy" = none :=
  ⟨(c10_proxy_server_synonym ["--foo=1"] ["--bar"] "--proxy=a:1"
      "--server=a:1" "a:1" (by decide) (by decide) (by decide)
      (by decide)).1,
   (c10_proxy_server_synonym ["--foo=1"] ["--bar"] "--proxy=a:1"
      "--server=a:1" "a:1" (by decide) (by decide) (by decide)
      (by decide)).2.1⟩

end Px
